import Mathlib

/-!
Verification development for the wmradio_streamlit play-log pipeline.

The repository contains four dashboard scripts that load a CSV of radio play
events and aggregate it.  We embed the data-handling parts of
`gemprostreamlit.py` (namespace `Gem`), `strealittimeline.py` (namespace
`Timeline`) and `wmradiostreamlitv2claude.py` (namespace `Claude`) as pure
Lean functions over lists of rows and prove the spec's claims about them.

Modelling conventions, used throughout:

* A dataframe is a `List` of row structures, one structure per script,
  with the fields (columns) that script actually creates.
* A raw CSV cell that may be missing (pandas `NaN`) is an `Option`.
* Timestamps are minutes since an epoch (`Nat`).  The external
  `pd.to_datetime` parser is modelled by its observable outcome: a raw
  timestamp cell is either a well-formed string denoting minute count `t`
  (`TsStr.valid t`), or malformed (`TsStr.invalid`), in which case
  `pd.to_datetime` raises.  `dt.date` truncates to days (`t / 1440`) and
  `dt.hour` extracts the hour of day.
* `pandas.Series.str.contains(pat)` with a plain-text pattern is
  case-sensitive substring containment, modelled by `containsSub`.
* A script that lets an exception escape, or that catches it and returns
  `None`, is modelled as returning `none`.
-/

/-- Case-sensitive substring containment, the semantics of
`Series.str.contains` with a plain (non-regex-special) pattern. -/
def containsSub (s pat : String) : Bool := decide (pat.data <:+: s.data)

/-- The station's own network identifier used by the exclusion filters
(`gemprostreamlit.py` line 18, `wmradiostreamlitv2claude.py` line 143). -/
def networkMarker : String := "The WMW Radio Network"

/-- The promotional-spot marker used by the exclusion filters
(`gemprostreamlit.py` line 19, `wmradiostreamlitv2claude.py` line 144). -/
def promoMarker : String := "Promo"

/-- A raw timestamp cell as seen by `pd.to_datetime`: either a well-formed
date-time string denoting `t` minutes since the epoch, or a malformed
string on which the parser raises. -/
inductive TsStr where
  | valid (t : Nat) : TsStr
  | invalid : TsStr
deriving DecidableEq

/-- Outcome of `pd.to_datetime` on one cell. -/
def parseTs : TsStr → Option Nat
  | TsStr.valid t => some t
  | TsStr.invalid => none

/-- `dt.date`: truncate a minute-count timestamp to its calendar day. -/
def dateOf (t : Nat) : Nat := t / 1440

/-- `dt.hour`: hour of day of a minute-count timestamp. -/
def hourOf (t : Nat) : Nat := t % 1440 / 60

/-- Day names in the fixed Monday-first order. -/
def dayNames : List String :=
  ["Monday", "Tuesday", "Wednesday", "Thursday", "Friday", "Saturday", "Sunday"]

/-- `dt.day_name()`: name of the weekday of a timestamp (the epoch day is
taken to be a Thursday, index 3 in the Monday-first list). -/
def dayNameOf (t : Nat) : String := dayNames.getD ((dateOf t + 3) % 7) ""

/-- Month names, January first. -/
def monthNames : List String :=
  ["January", "February", "March", "April", "May", "June", "July", "August",
   "September", "October", "November", "December"]

/-- `dt.month_name()` for a minute-count timestamp.  No claim depends on the
particulars of the civil calendar, only on this being a function of the
timestamp, so the calendar is simplified to 365-day years of twelve 30-day
months (the last month absorbing the remainder). -/
def monthNameOf (t : Nat) : String := monthNames.getD (min (dateOf t % 365 / 30) 11) ""

/-- `dt.year` for a minute-count timestamp, under the same simplified
365-day calendar as `monthNameOf`. -/
def yearOf (t : Nat) : Nat := dateOf t / 365

/-- One row of the input CSV as produced by `pd.read_csv`: the five input
columns `pick_id`, `timestamp`, `artist`, `song`, `artwork_large`, each cell
possibly missing (`none` models `NaN`). -/
structure RawRow where
  pick_id : Option String
  timestamp : TsStr
  artist : Option String
  song : Option String
  artwork_large : Option String
deriving DecidableEq

namespace Gem

/-- One row of the dataframe returned by `gemprostreamlit.load_data`:
the input columns with `timestamp` parsed, the derived `date` column
(line 15), and `artist`/`song` made non-null strings (lines 16-17). -/
structure Row where
  pick_id : Option String
  timestamp : Nat
  date : Nat
  artist : String
  song : String
  artwork_large : Option String
deriving DecidableEq

/-- The per-row preparation inside `gemprostreamlit.load_data` (lines
14-17): parse the timestamp, extract the date, and replace missing
`artist`/`song` by their placeholders. -/
def prep (r : RawRow) : Row :=
  ⟨r.pick_id, (parseTs r.timestamp).getD 0, dateOf ((parseTs r.timestamp).getD 0),
    r.artist.getD "Unknown Artist", r.song.getD "Unknown Song", r.artwork_large⟩

/-- `gemprostreamlit.load_data` (lines 11-20).  `pd.to_datetime` raises on
any malformed timestamp cell and the exception escapes, modelled as `none`;
otherwise every row is prepared and the two marker-based exclusion filters
of lines 18-19 are applied in order. -/
def load_data (rows : List RawRow) : Option (List Row) :=
  if rows.any (fun r => (parseTs r.timestamp).isNone) then none
  else some
    (((rows.map prep).filter (fun r => !containsSub r.artist networkMarker)).filter
      (fun r => !containsSub r.song promoMarker))

/-- The sidebar filtering of `gemprostreamlit.py` (lines 61-69): date range
inclusive on the derived `date` column, then artist equality unless the
sentinel `"All"` is selected, then song equality unless `"All"`. -/
def filtered_df (df : List Row) (start_date end_date : Nat)
    (selected_artist selected_song : String) : List Row :=
  let f1 := df.filter fun r => decide (start_date ≤ r.date) && decide (r.date ≤ end_date)
  let f2 := if selected_artist ≠ "All" then f1.filter (fun r => r.artist == selected_artist) else f1
  if selected_song ≠ "All" then f2.filter (fun r => r.song == selected_song) else f2

end Gem

namespace Timeline

/-- One row of the dataframe returned by
`strealittimeline.load_and_prepare_data`: `artist` is made a non-null
string (line 11) and `timestamp` is parsed (line 14); the `song` column is
left untouched and may still be missing. -/
structure Row where
  pick_id : Option String
  timestamp : Nat
  artist : String
  song : Option String
  artwork_large : Option String
deriving DecidableEq

/-- `strealittimeline.load_and_prepare_data` (lines 6-16): fill missing
`artist` cells with "Unknown Artist", parse timestamps (an unparseable cell
makes `pd.to_datetime` raise, modelled as `none`).  No placeholder is
substituted for missing songs and no marker-based exclusion is applied. -/
def load_and_prepare_data (rows : List RawRow) : Option (List Row) :=
  if rows.any (fun r => (parseTs r.timestamp).isNone) then none
  else some (rows.map fun r =>
    ⟨r.pick_id, (parseTs r.timestamp).getD 0, r.artist.getD "Unknown Artist",
      r.song, r.artwork_large⟩)

end Timeline

namespace Claude

/-- One row of the dataframe returned by
`wmradiostreamlitv2claude.load_data` (lines 26-42): `artist` filled (line
30), `timestamp` parsed (line 32), derived columns `date`, `hour`,
`day_of_week`, `month`, `year` (lines 34-38); the `song` column is not
touched by `load_data` and may still be missing. -/
structure Row where
  pick_id : Option String
  timestamp : Nat
  artist : String
  song : Option String
  artwork_large : Option String
  date : Nat
  hour : Nat
  day_of_week : String
  month : String
  year : Nat
deriving DecidableEq

/-- A CSV source as seen by `wmradiostreamlitv2claude.load_data`:
whether `pd.read_csv` can read it at all, whether the `artist` and
`timestamp` columns are present (the only columns `load_data` touches;
accessing an absent one raises `KeyError`), and the parsed rows. -/
structure CsvSource where
  readable : Bool
  hasArtistCol : Bool
  hasTimestampCol : Bool
  rows : List RawRow
deriving DecidableEq

/-- The per-row preparation of `wmradiostreamlitv2claude.load_data`:
fill `artist` (line 30), parse `timestamp` (line 32) and derive the five
calendar columns (lines 34-38). -/
def prep (r : RawRow) : Row :=
  let t := (parseTs r.timestamp).getD 0
  ⟨r.pick_id, t, r.artist.getD "Unknown Artist", r.song, r.artwork_large,
    dateOf t, hourOf t, dayNameOf t, monthNameOf t, yearOf t⟩

/-- `wmradiostreamlitv2claude.load_data` (lines 26-42).  The body is
wrapped in `try/except` returning `None` on any exception: an unreadable
source (`pd.read_csv` raises), an absent `artist` or `timestamp` column
(`KeyError`), or any malformed timestamp cell (`pd.to_datetime` raises).
Otherwise every row is prepared; no row is dropped. -/
def load_data (src : CsvSource) : Option (List Row) :=
  if src.readable = false then none
  else if src.hasArtistCol = false then none
  else if src.hasTimestampCol = false then none
  else if src.rows.any (fun r => (parseTs r.timestamp).isNone) then none
  else some (src.rows.map prep)

/-- The post-load cleaning of `wmradiostreamlitv2claude.py` (lines
140-144): fill missing `artist`/`song` cells with their placeholders
(`artist` is already non-null after `load_data`, so only `song` changes),
then drop rows whose `artist` contains the network marker and rows whose
`song` contains the promo marker. -/
def clean (df : List Row) : List Row :=
  let df1 := df.map fun r =>
    ⟨r.pick_id, r.timestamp, r.artist, some (r.song.getD "Unknown Song"), r.artwork_large,
      r.date, r.hour, r.day_of_week, r.month, r.year⟩
  let df2 := df1.filter fun r => !containsSub r.artist networkMarker
  df2.filter fun r => !containsSub (r.song.getD "") promoMarker

end Claude

/-- Lexicographic order on strings by code point, the order in which
`pandas.groupby(sort=True)` lists string group keys. -/
def strLeAux : List Char → List Char → Bool
  | [], _ => true
  | _ :: _, [] => false
  | a :: as, b :: bs =>
    if a.toNat < b.toNat then true
    else if b.toNat < a.toNat then false
    else strLeAux as bs

/-- Lexicographic order on strings (code-point order). -/
def strLe (a b : String) : Bool := strLeAux a.data b.data

/-- The comparison underlying a descending sort of `(key, count)` groups by
count. -/
def countsGe (p q : String × Nat) : Prop := q.2 ≤ p.2

instance : DecidableRel countsGe := fun p q => inferInstanceAs (Decidable (q.2 ≤ p.2))

instance : IsTotal (String × Nat) countsGe :=
  ⟨fun p q => (Nat.le_total q.2 p.2).elim Or.inl Or.inr⟩

instance : IsTrans (String × Nat) countsGe :=
  ⟨fun _ _ _ h1 h2 => Nat.le_trans h2 h1⟩

namespace Gem

/-- The distinct artists of a dataframe in the order `groupby("artist")`
(default `sort=True`) produces them: ascending lexicographic order.
`List.insertionSort` is a stable sort, like the one pandas uses to order
group keys. -/
def artistKeys (df : List Row) : List String :=
  List.insertionSort (fun a b => strLe a b = true) (df.map (·.artist)).dedup

/-- `filtered_df.groupby("artist")["pick_id"].count()` (line 81-82): one
`(artist, plays)` pair per distinct artist in key-sorted order, counting
the rows of that artist whose `pick_id` cell is non-null (pandas `count()`
counts non-NaN values of the selected column). -/
def artistGroups (df : List Row) : List (String × Nat) :=
  (artistKeys df).map fun k => (k, df.countP fun r => r.artist == k && r.pick_id.isSome)

/-- `Series.nlargest(n)` with the default `keep='first'` (line 83): the
series reordered by value descending, first occurrences first on ties
(a stable descending sort of the key-sorted groupby output), truncated to
`n` entries. -/
def nlargest (n : Nat) (s : List (String × Nat)) : List (String × Nat) :=
  (List.insertionSort countsGe s).take n

/-- The `top_artists` aggregation of `gemprostreamlit.py` (lines 80-85),
generalised from the literal `nlargest(5)` to `nlargest(n)`. -/
def top_artists (df : List Row) (n : Nat) : List (String × Nat) :=
  nlargest n (artistGroups df)

/-- The `recent_plays` table of `gemprostreamlit.py` (lines 159-160):
`sort_values("timestamp", ascending=False).head(10)`.  pandas computes a
descending sort as the reverse of an ascending argsort
(`nargsort`: `indexer = indexer[::-1]`); for the array sizes where the
default sort is stable this is the reverse of a stable ascending sort,
which is what we embed. -/
def recent_plays (df : List Row) : List Row :=
  ((List.insertionSort (fun a b : Row => a.timestamp ≤ b.timestamp) df).reverse).take 10

end Gem

namespace Claude

/-- The sidebar filtering of `wmradiostreamlitv2claude.py` (lines 163-181):
date range inclusive on the `date` column, then artist equality unless the
sentinel `"All Artists"` is selected, then song equality unless
`"All Songs"` (comparison with a missing song cell is `False` in pandas,
hence `r.song == some selected_song`). -/
def filtered_df (df : List Row) (start_date end_date : Nat)
    (selected_artist selected_song : String) : List Row :=
  let f1 := df.filter fun r => decide (start_date ≤ r.date) && decide (r.date ≤ end_date)
  let f2 := if selected_artist ≠ "All Artists" then
      f1.filter (fun r => r.artist == selected_artist) else f1
  if selected_song ≠ "All Songs" then f2.filter (fun r => r.song == some selected_song) else f2

/-- The `recent_plays` ordering of `wmradiostreamlitv2claude.py` (line
482): `sort_values('timestamp', ascending=False)`.  pandas computes a
descending sort as the reverse of an ascending argsort
(`nargsort`: `indexer = indexer[::-1]`); for the array sizes where the
default sort is stable this is the reverse of a stable ascending sort,
which is what we embed. -/
def recent_plays (df : List Row) : List Row :=
  (List.insertionSort (fun a b : Row => a.timestamp ≤ b.timestamp) df).reverse

/-- `total_pages` of `wmradiostreamlitv2claude.py` (line 486):
`max(1, (len(recent_plays) + plays_per_page - 1) // plays_per_page)`. -/
def total_pages (count per : Nat) : Nat := max 1 ((count + per - 1) / per)

/-- The slice shown for 0-indexed page `page` (lines 495-499):
`start_idx = page * per`, `end_idx = min(start_idx + per, len(seq))`,
`seq.iloc[start_idx:end_idx]`. -/
def page_slice (seq : List α) (per page : Nat) : List α :=
  let s := page * per
  let e := min (s + per) seq.length
  (seq.drop s).take (e - s)

/-- The pagination of `wmradiostreamlitv2claude.py` (lines 485-499) as a
function of the 1-indexed page number entered at the UI boundary: when
there is more than one page the `st.number_input` widget constrains the
entered value to `[1, total_pages]` (its `min_value`/`max_value`
arguments), i.e. an out-of-range request is clamped, and 1 is subtracted
to obtain the 0-indexed page; with a single page, page 0 is shown. -/
def paginate (seq : List α) (per idx : Nat) : List α :=
  let tp := total_pages seq.length per
  let page := if tp > 1 then min (max idx 1) tp - 1 else 0
  page_slice seq per page

/-- Earliest `date` of a dataframe (`df['timestamp'].min()` truncated to
its day, the first daily bin of `pd.Grouper(key='timestamp', freq='D')`). -/
def minDate : List Row → Nat
  | [] => 0
  | r :: rs => rs.foldl (fun m x => min m x.date) r.date

/-- Latest `date` of a dataframe (the last daily bin of the `Grouper`). -/
def maxDate : List Row → Nat
  | [] => 0
  | r :: rs => rs.foldl (fun m x => max m x.date) r.date

/-- The daily `time_df` of `wmradiostreamlitv2claude.py` (lines 280-282):
`groupby(pd.Grouper(key='timestamp', freq='D')).size()`.  A frequency
`Grouper` bins like `resample`: it produces one bin per day from the
earliest to the latest timestamp inclusive, counting the rows whose
timestamp falls in the bin — days with no rows appear with count 0. -/
def time_df_daily : List Row → List (Nat × Nat)
  | [] => []
  | r :: rs =>
    let lo := minDate (r :: rs)
    let hi := maxDate (r :: rs)
    (List.range (hi + 1 - lo)).map fun i =>
      (lo + i, (r :: rs).countP fun x => x.date == lo + i)

/-- The five input-schema column names, in the order of the sample CSV. -/
def input_columns : List String :=
  ["pick_id", "timestamp", "artist", "song", "artwork_large"]

/-- The columns `load_data` adds, in assignment order (lines 34-38). -/
def derived_columns : List String :=
  ["date", "hour", "day_of_week", "month", "year"]

/-- An exported CSV file: its header row and its data rows.  The data rows
are recorded through their five input-schema columns (as the values the
cells parse back to); the exported derived-column cells are not recorded
because `load_data` overwrites all five derived columns on any re-load
(lines 34-38), so they cannot influence a round trip. -/
structure CsvOut where
  header : List String
  rows : List RawRow
deriving DecidableEq

/-- `filtered_df.to_csv(index=False)` (line 188): serialize every column of
the dataframe — the five input columns and the five derived columns —
with a header row.  A `timestamp` cell is written as the default string
rendering of the datetime, which `pd.to_datetime` parses back to the same
instant (`TsStr.valid r.timestamp`); a missing `song` stays an empty cell. -/
def to_csv (df : List Row) : CsvOut :=
  ⟨input_columns ++ derived_columns,
    df.map fun r => ⟨r.pick_id, TsStr.valid r.timestamp, some r.artist, r.song, r.artwork_large⟩⟩

/-- Re-loading an exported CSV with `load_data`: the file is readable and
has all its columns, so only the parsed rows matter. -/
def reload (c : CsvOut) : Option (List Row) := load_data ⟨true, true, true, c.rows⟩

/-- A dataframe whose derived columns agree with its `timestamp` column,
as is the case for every output of `load_data` and preserved by `clean`
and `filtered_df`. -/
def wf (df : List Row) : Bool :=
  df.all fun r =>
    r.date == dateOf r.timestamp && r.hour == hourOf r.timestamp &&
    r.day_of_week == dayNameOf r.timestamp && r.month == monthNameOf r.timestamp &&
    r.year == yearOf r.timestamp

end Claude

/-- Lexicographic order on `(song, artist)` pairs (first component by code
point, ties by second component), the order in which
`groupby(['song', 'artist'])` with the default `sort=True` lists its tuple
group keys. -/
def pairStrLe (p q : String × String) : Prop :=
  if p.1 = q.1 then strLe p.2 q.2 = true else strLe p.1 q.1 = true

instance : DecidableRel pairStrLe := fun p q =>
  inferInstanceAs (Decidable (if p.1 = q.1 then strLe p.2 q.2 = true else strLe p.1 q.1 = true))

namespace Claude

/-- The distinct `(song, artist)` pairs of a dataframe in key-sorted order
(`groupby` drops rows whose `song` cell is missing, as pandas groupby
drops NaN keys). -/
def songArtistKeys (df : List Row) : List (String × String) :=
  List.insertionSort pairStrLe ((df.filterMap fun r => r.song.map fun s => (s, r.artist)).dedup)

/-- `filtered_df.groupby(['song', 'artist']).size()` (line 206): one
`((song, artist), plays)` pair per distinct key pair in key-sorted order,
counting the rows of that pair (`size()` counts rows, not non-null
cells). -/
def songGroups (df : List Row) : List ((String × String) × Nat) :=
  (songArtistKeys df).map fun k => (k, df.countP fun r => r.song == some k.1 && r.artist == k.2)

/-- `top_songs` of `wmradiostreamlitv2claude.py` (lines 206-207):
`sort_values('plays', ascending=False).head(10)`.  As in `recent_plays`,
pandas computes the descending sort as the reverse of an ascending argsort
(`nargsort`: `indexer = indexer[::-1]`), embedded as the reverse of a
stable ascending sort, truncated to 10 entries. -/
def top_songs (df : List Row) : List ((String × String) × Nat) :=
  ((List.insertionSort (fun p q : (String × String) × Nat => p.2 ≤ q.2)
    (songGroups df)).reverse).take 10

/-- Week index of a timestamp under pandas frequency `'W'` (= `'W-SUN'`):
bins end on Sundays.  The epoch day 0 is a Thursday, so Sundays are the
days ≡ 3 (mod 7), and two days share their ending Sunday exactly when
they have the same `(day + 3) / 7`. -/
def weekIdxOf (t : Nat) : Nat := (dateOf t + 3) / 7

/-- The label pandas gives weekly bin `k`: the date of its ending Sunday
(the right bin edge, not the week start). -/
def weekLabelOf (k : Nat) : Nat := 7 * k + 3

/-- Gregorian leap year. -/
def isLeap (y : Nat) : Bool := (y % 4 == 0 && y % 100 != 0) || y % 400 == 0

/-- Length in days of linear civil month `idx`, months counted from
January 1970 (the timestamp epoch). -/
def daysInMonthIdx (idx : Nat) : Nat :=
  match idx % 12 with
  | 1 => if isLeap (1970 + idx / 12) then 29 else 28
  | 3 | 5 | 8 | 10 => 30
  | _ => 31

/-- First epoch-day of linear civil month `idx`. -/
def monthStartDay : Nat → Nat
  | 0 => 0
  | idx + 1 => monthStartDay idx + daysInMonthIdx idx

/-- Last epoch-day of linear civil month `idx` — the month-end date pandas
uses as the `'M'` bin label (the right bin edge, not the month start). -/
def monthEndDay (idx : Nat) : Nat := monthStartDay (idx + 1) - 1

/-- Scan for the civil month containing day-offset `d` from the start of
month `idx`.  Each step consumes at least one day, so `fuel ≥ d + 1`
suffices for the scan to finish. -/
def monthIdxAux : Nat → Nat → Nat → Nat
  | 0, _, idx => idx
  | fuel + 1, d, idx =>
    if d < daysInMonthIdx idx then idx
    else monthIdxAux fuel (d - daysInMonthIdx idx) (idx + 1)

/-- Linear civil month index (from January 1970) of a timestamp's day. -/
def monthIdxOf (t : Nat) : Nat := monthIdxAux (dateOf t + 1) (dateOf t) 0

/-- Smallest bucket index of a dataframe under index function `f`
(`df['timestamp'].min()` mapped into its bin; the index functions are
monotone in the timestamp, so folding over the rows is the same). -/
def minIdx (f : Row → Nat) : List Row → Nat
  | [] => 0
  | r :: rs => rs.foldl (fun m x => min m (f x)) (f r)

/-- Largest bucket index of a dataframe under index function `f`. -/
def maxIdx (f : Row → Nat) : List Row → Nat
  | [] => 0
  | r :: rs => rs.foldl (fun m x => max m (f x)) (f r)

/-- Common shape of `groupby(pd.Grouper(key='timestamp', freq=...)).size()`
for a frequency whose bins are indexed by `f` and labelled through `g`:
one bin per consecutive bucket index from the first to the last occupied
one — `resample`-like binning that zero-fills empty bins inside the span —
counting the rows whose index matches. -/
def bucket_df (f : Row → Nat) (g : Nat → Nat) : List Row → List (Nat × Nat)
  | [] => []
  | r :: rs =>
    (List.range (maxIdx f (r :: rs) + 1 - minIdx f (r :: rs))).map fun i =>
      (g (minIdx f (r :: rs) + i), (r :: rs).countP fun x => f x == minIdx f (r :: rs) + i)

/-- The weekly `time_df` of `wmradiostreamlitv2claude.py` (lines 285-287):
`freq='W'` bins end on Sundays, labelled by the ending Sunday's date. -/
def time_df_weekly (df : List Row) : List (Nat × Nat) :=
  bucket_df (fun r => weekIdxOf r.timestamp) weekLabelOf df

/-- The monthly `time_df` of `wmradiostreamlitv2claude.py` (lines 290-292):
`freq='M'` bins are calendar months, labelled by the month-end date. -/
def time_df_monthly (df : List Row) : List (Nat × Nat) :=
  bucket_df (fun r => monthIdxOf r.timestamp) monthEndDay df

end Claude

/-- Modelled from the spec: the `TopN` operation as the spec words it,
"counts rows per distinct combination of group-keys ... returns the `n`
largest by count descending. Tie-break policy: stable on first-encountered
order".  Group keys are taken in first-encountered order (the first
occurrences of `df.map artist`, obtained as the reverse of the
last-occurrence `dedup` of the reversed list), each key counts all of its
rows, and the stable descending sort keeps tied keys in that order.
This definition exists only to be compared with the source's
`Gem.top_artists`. -/
def topN_firstEncountered (df : List Gem.Row) (n : Nat) : List (String × Nat) :=
  (List.insertionSort countsGe
    (((df.map (·.artist)).reverse.dedup.reverse).map fun k =>
      (k, df.countP fun r => r.artist == k))).take n

/-! ### Concrete inputs used by witnesses and counterexamples -/

/-- A raw row whose artist is exactly the network identifier. -/
def rawWMW : RawRow :=
  ⟨some "20303122605", TsStr.valid 0, some "The WMW Radio Network", some "Daily Rewind", none⟩

/-- The `Timeline` image of `rawWMW`. -/
def tlWMW : Timeline.Row := ⟨some "20303122605", 0, "The WMW Radio Network", some "Daily Rewind", none⟩

/-- A raw row with both `artist` and `song` missing. -/
def rawMissing : RawRow := ⟨some "7", TsStr.valid 0, none, none, none⟩

/-- The `Timeline` image of `rawMissing`: song still missing. -/
def tlMissing : Timeline.Row := ⟨some "7", 0, "Unknown Artist", none, none⟩

/-- A raw row with a missing artist whose song contains the promo marker. -/
def rawPromoNoArtist : RawRow := ⟨some "8", TsStr.valid 0, none, some "Promo", none⟩

/-- A play of artist "B", first in the log. -/
def gemRowB : Gem.Row := ⟨some "1", 0, 0, "B", "X", none⟩

/-- A play of artist "A", second in the log. -/
def gemRowA : Gem.Row := ⟨some "2", 1, 0, "A", "Y", none⟩

/-- A play of artist "A" whose `pick_id` cell is missing. -/
def gemRowANoId : Gem.Row := ⟨none, 2, 0, "A", "Y", none⟩

/-- A play on day 0. -/
def cDay0 : Claude.Row := ⟨some "1", 0, "A", some "X", none, 0, 0, "Thursday", "January", 0⟩

/-- A play on day 2 (minute 2880), two days after `cDay0`. -/
def cDay2 : Claude.Row := ⟨some "2", 2880, "A", some "X", none, 2, 0, "Saturday", "January", 0⟩

/-- First of two plays sharing one timestamp. -/
def cTie1 : Claude.Row := ⟨some "1", 100, "A", some "X", none, 0, 1, "Thursday", "January", 0⟩

/-- Second of two plays sharing one timestamp. -/
def cTie2 : Claude.Row := ⟨some "2", 100, "B", some "Y", none, 0, 1, "Thursday", "January", 0⟩

/-- A readable source with both required columns present whose second row
has a malformed timestamp. -/
def srcBadTs : Claude.CsvSource :=
  ⟨true, true, true,
    [⟨some "1", TsStr.valid 0, some "A", some "X", none⟩,
     ⟨some "2", TsStr.invalid, some "B", some "Y", none⟩]⟩

/-- A one-row loaded dataframe (the image of `rawMissing` under
`Claude.load_data`). -/
def cLoaded : List Claude.Row := [⟨some "7", 0, "Unknown Artist", none, none, 0, 0, "Thursday", "January", 0⟩]

/-! ### Helper lemmas -/

theorem sum_map_add_nat {β : Type} (l : List β) (g h : β → Nat) :
    (l.map fun i => g i + h i).sum = (l.map g).sum + (l.map h).sum := by
  induction l with
  | nil => simp
  | cons a l ih => simp only [List.map_cons, List.sum_cons, ih]; omega

theorem sum_ite_range (lo n x : Nat) :
    ((List.range n).map fun i => if x = lo + i then 1 else 0).sum
      = if lo ≤ x ∧ x < lo + n then 1 else 0 := by
  induction n with
  | zero => simp only [List.range_zero, List.map_nil, List.sum_nil]
            split
            · omega
            · rfl
  | succ n ih =>
    rw [List.range_succ, List.map_append, List.sum_append, ih]
    simp only [List.map_cons, List.map_nil, List.sum_cons, List.sum_nil]
    split_ifs <;> omega

theorem sum_range_countP {β : Type} (l : List β) (f : β → Nat) (lo n : Nat)
    (h : ∀ x ∈ l, lo ≤ f x ∧ f x < lo + n) :
    ((List.range n).map fun i => l.countP fun x => f x == lo + i).sum = l.length := by
  induction l with
  | nil => simp
  | cons a l ih =>
    have ha := h a (List.mem_cons_self a l)
    have hl : ∀ x ∈ l, lo ≤ f x ∧ f x < lo + n := fun x hx => h x (List.mem_cons_of_mem _ hx)
    simp only [List.countP_cons]
    rw [sum_map_add_nat ((List.range n)) (fun i => l.countP fun x => f x == lo + i)
      (fun i => if (f a == lo + i) = true then 1 else 0), ih hl]
    have : ((List.range n).map fun i => if (f a == lo + i) = true then 1 else 0).sum
        = ((List.range n).map fun i => if f a = lo + i then 1 else 0).sum := by
      simp only [beq_iff_eq]
    rw [this, sum_ite_range]
    simp only [List.length_cons]
    split_ifs
    omega

theorem foldl_min_le_init (l : List Nat) (a : Nat) : l.foldl min a ≤ a := by
  induction l generalizing a with
  | nil => exact Nat.le_refl a
  | cons x l ih =>
    exact Nat.le_trans (ih (min a x)) (Nat.min_le_left a x)

theorem foldl_min_le_mem (l : List Nat) (a : Nat) : ∀ x ∈ l, l.foldl min a ≤ x := by
  induction l generalizing a with
  | nil => intro x hx; cases hx
  | cons y l ih =>
    intro x hx
    rcases List.mem_cons.mp hx with rfl | hx
    · exact Nat.le_trans (foldl_min_le_init l (min a x)) (Nat.min_le_right a x)
    · exact ih (min a y) x hx

theorem init_le_foldl_max (l : List Nat) (a : Nat) : a ≤ l.foldl max a := by
  induction l generalizing a with
  | nil => exact Nat.le_refl a
  | cons x l ih =>
    exact Nat.le_trans (Nat.le_max_left a x) (ih (max a x))

theorem mem_le_foldl_max (l : List Nat) (a : Nat) : ∀ x ∈ l, x ≤ l.foldl max a := by
  induction l generalizing a with
  | nil => intro x hx; cases hx
  | cons y l ih =>
    intro x hx
    rcases List.mem_cons.mp hx with rfl | hx
    · exact Nat.le_trans (Nat.le_max_right a x) (init_le_foldl_max l (max a x))
    · exact ih (max a y) x hx

theorem sum_take_le_nat (l : List Nat) (n : Nat) : (l.take n).sum ≤ l.sum := by
  conv_rhs => rw [← List.take_append_drop n l]
  rw [List.sum_append]
  exact Nat.le_add_right _ _


theorem gem_filtered_df_eq (df : List Gem.Row) (s e : Nat) (a b : String) :
    Gem.filtered_df df s e a b = df.filter fun r =>
      ((decide (s ≤ r.date) && decide (r.date ≤ e)) &&
        (a == "All" || r.artist == a)) && (b == "All" || r.song == b) := by
  unfold Gem.filtered_df
  by_cases ha : a = "All" <;> by_cases hb : b = "All"
  · rw [if_neg (by simp [hb]), if_neg (by simp [ha])]
    refine List.filter_congr fun r _ => ?_
    simp [ha, hb]
  · rw [if_pos hb, if_neg (by simp [ha]), List.filter_filter]
    refine List.filter_congr fun r _ => ?_
    have hb' : (b == "All") = false := beq_eq_false_iff_ne.mpr hb
    simp only [ha, beq_self_eq_true, Bool.true_or, Bool.and_true, hb', Bool.false_or]
    rw [Bool.and_comm]
  · rw [if_neg (by simp [hb]), if_pos ha, List.filter_filter]
    refine List.filter_congr fun r _ => ?_
    have ha' : (a == "All") = false := beq_eq_false_iff_ne.mpr ha
    simp only [hb, beq_self_eq_true, Bool.true_or, Bool.and_true, ha', Bool.false_or]
    rw [Bool.and_comm]
  · rw [if_pos hb, if_pos ha, List.filter_filter, List.filter_filter]
    refine List.filter_congr fun r _ => ?_
    have ha' : (a == "All") = false := beq_eq_false_iff_ne.mpr ha
    have hb' : (b == "All") = false := beq_eq_false_iff_ne.mpr hb
    simp only [ha', hb', Bool.false_or]
    cases h1 : (r.song == b) <;> cases h2 : (r.artist == a) <;>
      cases h3 : (decide (s ≤ r.date) && decide (r.date ≤ e)) <;> rfl

theorem claude_filtered_df_eq (df : List Claude.Row) (s e : Nat) (a b : String) :
    Claude.filtered_df df s e a b = df.filter fun r =>
      ((decide (s ≤ r.date) && decide (r.date ≤ e)) &&
        (a == "All Artists" || r.artist == a)) && (b == "All Songs" || r.song == some b) := by
  unfold Claude.filtered_df
  by_cases ha : a = "All Artists" <;> by_cases hb : b = "All Songs"
  · rw [if_neg (by simp [hb]), if_neg (by simp [ha])]
    refine List.filter_congr fun r _ => ?_
    simp [ha, hb]
  · rw [if_pos hb, if_neg (by simp [ha]), List.filter_filter]
    refine List.filter_congr fun r _ => ?_
    have hb' : (b == "All Songs") = false := beq_eq_false_iff_ne.mpr hb
    simp only [ha, beq_self_eq_true, Bool.true_or, Bool.and_true, hb', Bool.false_or]
    rw [Bool.and_comm]
  · rw [if_neg (by simp [hb]), if_pos ha, List.filter_filter]
    refine List.filter_congr fun r _ => ?_
    have ha' : (a == "All Artists") = false := beq_eq_false_iff_ne.mpr ha
    simp only [hb, beq_self_eq_true, Bool.true_or, Bool.and_true, ha', Bool.false_or]
    rw [Bool.and_comm]
  · rw [if_pos hb, if_pos ha, List.filter_filter, List.filter_filter]
    refine List.filter_congr fun r _ => ?_
    have ha' : (a == "All Artists") = false := beq_eq_false_iff_ne.mpr ha
    have hb' : (b == "All Songs") = false := beq_eq_false_iff_ne.mpr hb
    simp only [ha', hb', Bool.false_or]
    cases h1 : (r.song == some b) <;> cases h2 : (r.artist == a) <;>
      cases h3 : (decide (s ≤ r.date) && decide (r.date ≤ e)) <;> rfl

theorem page_slice_eq_drop_take {β : Type} (seq : List β) (per i : Nat) :
    Claude.page_slice seq per i = (seq.drop (i * per)).take per := by
  show (seq.drop (i * per)).take (min (i * per + per) seq.length - i * per)
      = (seq.drop (i * per)).take per
  rcases Nat.le_total (i * per + per) seq.length with h | h
  · rw [Nat.min_eq_left h]
    congr 1
    omega
  · rw [Nat.min_eq_right h]
    have hlen : (seq.drop (i * per)).length = seq.length - i * per := List.length_drop _ _
    rw [List.take_of_length_le (by omega), List.take_of_length_le (by omega)]

theorem join_page_slices {β : Type} (seq : List β) (per k : Nat) :
    ((List.range k).map fun i => (seq.drop (i * per)).take per).flatten = seq.take (k * per) := by
  induction k with
  | zero => simp
  | succ k ih =>
    rw [List.range_succ, List.map_append, List.flatten_append, ih]
    simp only [List.map_cons, List.map_nil, List.flatten_cons, List.flatten_nil, List.append_nil]
    rw [Nat.succ_mul, List.take_add]


theorem le_total_pages_mul (n per : Nat) (h : 0 < per) :
    n ≤ Claude.total_pages n per * per := by
  unfold Claude.total_pages
  have hd := Nat.div_add_mod (n + per - 1) per
  have hm : (n + per - 1) % per < per := Nat.mod_lt _ h
  rcases Nat.le_total 1 ((n + per - 1) / per) with hq | hq
  · rw [Nat.max_eq_right hq, Nat.mul_comm]
    omega
  · rw [Nat.max_eq_left hq, Nat.one_mul]
    have h2 : per * ((n + per - 1) / per) ≤ per * 1 := Nat.mul_le_mul_left per hq
    omega

theorem gem_load_mem_markers {raw : List RawRow} {df : List Gem.Row}
    (h : Gem.load_data raw = some df) {r : Gem.Row} (hr : r ∈ df) :
    containsSub r.artist networkMarker = false ∧ containsSub r.song promoMarker = false := by
  by_cases hany : raw.any (fun r => (parseTs r.timestamp).isNone) = true
  · unfold Gem.load_data at h
    rw [if_pos hany] at h
    cases h
  · unfold Gem.load_data at h
    rw [if_neg hany] at h
    injection h with h
    subst h
    rw [List.mem_filter] at hr
    obtain ⟨hr1, hsong⟩ := hr
    rw [List.mem_filter] at hr1
    obtain ⟨_, hartist⟩ := hr1
    exact ⟨by simpa using hartist, by simpa using hsong⟩

/-- C1 (amended).  In `gemprostreamlit.load_data` every returned row is free
of both exclusion markers, and so is every row of any sidebar-filter result
computed from the returned log; in `wmradiostreamlitv2claude.py` the same
holds for every row surviving the post-load cleaning step (lines 140-144).
(As loaded by `strealittimeline.load_and_prepare_data`, by contrast, such
rows are retained — see the counterexample.) -/
theorem marker_rows_absent_after_gem_load_and_claude_clean :
    (∀ (raw : List RawRow) (df : List Gem.Row), Gem.load_data raw = some df →
      ∀ r ∈ df, containsSub r.artist networkMarker = false ∧
        containsSub r.song promoMarker = false)
    ∧ (∀ (raw : List RawRow) (df : List Gem.Row), Gem.load_data raw = some df →
      ∀ (s e : Nat) (a b : String), ∀ r ∈ Gem.filtered_df df s e a b,
        containsSub r.artist networkMarker = false ∧
          containsSub r.song promoMarker = false)
    ∧ (∀ df : List Claude.Row, ∀ r ∈ Claude.clean df,
        containsSub r.artist networkMarker = false ∧
          containsSub (r.song.getD "") promoMarker = false) := by
  refine ⟨fun raw df h r hr => gem_load_mem_markers h hr,
    fun raw df h s e a b r hr => ?_, fun df r hr => ?_⟩
  · rw [gem_filtered_df_eq] at hr
    exact gem_load_mem_markers h (List.mem_filter.mp hr).1
  · unfold Claude.clean at hr
    rw [List.mem_filter] at hr
    obtain ⟨hr1, hsong⟩ := hr
    rw [List.mem_filter] at hr1
    obtain ⟨_, hartist⟩ := hr1
    exact ⟨by simpa using hartist, by simpa using hsong⟩

/-- C1 witness: a concrete successful load whose row is marker-free. -/
theorem marker_rows_absent_witness :
    Gem.load_data [rawMissing] = some [Gem.prep rawMissing] ∧
    containsSub (Gem.prep rawMissing).artist networkMarker = false := by
  refine ⟨by decide, ?_⟩
  exact (marker_rows_absent_after_gem_load_and_claude_clean.1 [rawMissing]
    [Gem.prep rawMissing] (by decide) (Gem.prep rawMissing) (by decide)).1

/-- C1 counterexample: `strealittimeline.load_and_prepare_data` retains a
row whose artist is exactly the network identifier, so the claim that such
rows are absent from the log produced by Load is false for this load. -/
theorem timeline_load_retains_network_row :
    Timeline.load_and_prepare_data [rawWMW] = some [tlWMW] ∧
    tlWMW.artist = "The WMW Radio Network" ∧
    containsSub tlWMW.artist networkMarker = true := by decide

/-- C2 (amended).  `gemprostreamlit.load_data` substitutes both
placeholders: every returned row's artist and song are the raw cells with
`none` replaced by "Unknown Artist" / "Unknown Song".
`strealittimeline.load_and_prepare_data` substitutes only the artist
placeholder and passes the song cell through unchanged, so its rows always
have a non-null artist but may keep a null song. -/
theorem load_placeholder_substitution :
    (∀ (raw : List RawRow) (df : List Gem.Row), Gem.load_data raw = some df →
      ∀ g ∈ df, ∃ r ∈ raw, g.artist = r.artist.getD "Unknown Artist" ∧
        g.song = r.song.getD "Unknown Song")
    ∧ (∀ (raw : List RawRow) (tdf : List Timeline.Row),
      Timeline.load_and_prepare_data raw = some tdf →
      ∀ t ∈ tdf, ∃ r ∈ raw, t.artist = r.artist.getD "Unknown Artist" ∧
        t.song = r.song) := by
  constructor
  · intro raw df h g hg
    by_cases hany : raw.any (fun r => (parseTs r.timestamp).isNone) = true
    · unfold Gem.load_data at h
      rw [if_pos hany] at h
      cases h
    · unfold Gem.load_data at h
      rw [if_neg hany] at h
      injection h with h
      subst h
      have hm : g ∈ raw.map Gem.prep :=
        (List.mem_filter.mp (List.mem_filter.mp hg).1).1
      obtain ⟨r, hr, rfl⟩ := List.mem_map.mp hm
      exact ⟨r, hr, rfl, rfl⟩
  · intro raw tdf h t ht
    by_cases hany : raw.any (fun r => (parseTs r.timestamp).isNone) = true
    · unfold Timeline.load_and_prepare_data at h
      rw [if_pos hany] at h
      cases h
    · unfold Timeline.load_and_prepare_data at h
      rw [if_neg hany] at h
      injection h with h
      subst h
      obtain ⟨r, hr, rfl⟩ := List.mem_map.mp ht
      exact ⟨r, hr, rfl, rfl⟩

/-- C2 witness: the substitution at a concrete row with both cells
missing. -/
theorem load_placeholder_substitution_witness :
    Gem.load_data [rawMissing] = some [Gem.prep rawMissing] ∧
    ∃ r ∈ [rawMissing], (Gem.prep rawMissing).artist = r.artist.getD "Unknown Artist" ∧
      (Gem.prep rawMissing).song = r.song.getD "Unknown Song" := by
  refine ⟨by decide, ?_⟩
  exact load_placeholder_substitution.1 [rawMissing] [Gem.prep rawMissing]
    (by decide) (Gem.prep rawMissing) (by decide)

/-- C2 counterexample: `strealittimeline.load_and_prepare_data` returns a
row whose song is still null, so the claim that every loaded row has a
non-null song is false for this load. -/
theorem timeline_load_keeps_null_song :
    Timeline.load_and_prepare_data [rawMissing] = some [tlMissing] ∧
    tlMissing.song = none ∧ tlMissing.artist = "Unknown Artist" := by decide

/-- C10 (amended).  In `gemprostreamlit.load_data` the placeholder
substitution precedes the marker exclusion, and the placeholders contain no
marker, so the substituted field itself never triggers exclusion: a row
with a missing artist is retained exactly when its (substituted) song is
promo-free, and a row with a missing song is retained exactly when its
(substituted) artist is network-free.  A row with a missing field can thus
still be excluded — by its other field. -/
theorem missing_field_never_causes_exclusion :
    ∀ (raw : List RawRow) (df : List Gem.Row), Gem.load_data raw = some df →
    ∀ r ∈ raw,
      (r.artist = none →
        (Gem.prep r ∈ df ↔ containsSub (r.song.getD "Unknown Song") promoMarker = false))
      ∧ (r.song = none →
        (Gem.prep r ∈ df ↔ containsSub (r.artist.getD "Unknown Artist") networkMarker = false)) := by
  intro raw df h r hr
  by_cases hany : raw.any (fun r => (parseTs r.timestamp).isNone) = true
  · unfold Gem.load_data at h
    rw [if_pos hany] at h
    cases h
  · unfold Gem.load_data at h
    rw [if_neg hany] at h
    injection h with h
    subst h
    have hmem : Gem.prep r ∈ raw.map Gem.prep := List.mem_map_of_mem _ hr
    have hart : (Gem.prep r).artist = r.artist.getD "Unknown Artist" := rfl
    have hsong : (Gem.prep r).song = r.song.getD "Unknown Song" := rfl
    constructor
    · intro hnone
      constructor
      · intro hin
        have := (List.mem_filter.mp hin).2
        simpa [hsong] using this
      · intro hno
        rw [List.mem_filter]
        refine ⟨?_, by simpa [hsong] using hno⟩
        rw [List.mem_filter]
        refine ⟨hmem, ?_⟩
        rw [hart, hnone]
        decide
    · intro hnone
      constructor
      · intro hin
        have := (List.mem_filter.mp (List.mem_filter.mp hin).1).2
        simpa [hart] using this
      · intro hno
        rw [List.mem_filter]
        constructor
        · rw [List.mem_filter]
          exact ⟨hmem, by simpa [hart] using hno⟩
        · rw [hsong, hnone]
          decide

/-- C10 witness: a row with a missing artist and a marker-free song is
retained. -/
theorem missing_field_never_causes_exclusion_witness :
    Gem.load_data [rawMissing] = some [Gem.prep rawMissing] ∧ rawMissing.artist = none ∧
    (Gem.prep rawMissing ∈ [Gem.prep rawMissing] ↔
      containsSub (rawMissing.song.getD "Unknown Song") promoMarker = false) := by
  refine ⟨by decide, rfl, ?_⟩
  exact (missing_field_never_causes_exclusion [rawMissing] [Gem.prep rawMissing]
    (by decide) rawMissing (by decide)).1 rfl

/-- C10 counterexample: a row whose artist is missing but whose song
contains the promo marker is excluded, so "every row whose artist or song
was missing is retained in the loaded log" is false. -/
theorem missing_artist_row_excluded_by_promo_song :
    rawPromoNoArtist.artist = none ∧
    Gem.load_data [rawPromoNoArtist] = some [] := by decide

/-- C3 (confirmed).  Both sidebar filters are exactly the order-preserving
selection of the rows satisfying all active predicates: the whole filter
equals one `List.filter` of the conjunction (date in `[start, end]`
inclusive; artist equality unless unconstrained; song equality unless
unconstrained), hence it is a sublist of the input (original order
preserved, empty result possible and valid), and membership is exactly the
conjunction of the predicates. -/
theorem filter_is_exact_selection :
    (∀ (df : List Gem.Row) (s e : Nat) (a b : String),
      Gem.filtered_df df s e a b = df.filter fun r =>
        ((decide (s ≤ r.date) && decide (r.date ≤ e)) &&
          (a == "All" || r.artist == a)) && (b == "All" || r.song == b))
    ∧ (∀ (df : List Claude.Row) (s e : Nat) (a b : String),
      Claude.filtered_df df s e a b = df.filter fun r =>
        ((decide (s ≤ r.date) && decide (r.date ≤ e)) &&
          (a == "All Artists" || r.artist == a)) && (b == "All Songs" || r.song == some b))
    ∧ (∀ (df : List Gem.Row) (s e : Nat) (a b : String),
      (Gem.filtered_df df s e a b).Sublist df)
    ∧ (∀ (df : List Gem.Row) (s e : Nat) (a b : String) (r : Gem.Row),
      r ∈ Gem.filtered_df df s e a b ↔
        r ∈ df ∧ (s ≤ r.date ∧ r.date ≤ e) ∧ (a = "All" ∨ r.artist = a) ∧
          (b = "All" ∨ r.song = b)) := by
  refine ⟨gem_filtered_df_eq, claude_filtered_df_eq, fun df s e a b => ?_, fun df s e a b r => ?_⟩
  · rw [gem_filtered_df_eq]
    exact List.filter_sublist _
  · rw [gem_filtered_df_eq, List.mem_filter]
    simp only [Bool.and_eq_true, Bool.or_eq_true, beq_iff_eq, decide_eq_true_eq]
    constructor
    · rintro ⟨hm, ⟨⟨hd1, hd2⟩, hart⟩, hsong⟩
      exact ⟨hm, ⟨hd1, hd2⟩, hart, hsong⟩
    · rintro ⟨hm, ⟨hd1, hd2⟩, hart, hsong⟩
      exact ⟨hm, ⟨⟨hd1, hd2⟩, hart⟩, hsong⟩

/-- C3 witness: the filter equation at a concrete log and predicate set. -/
theorem filter_is_exact_selection_witness :
    Gem.filtered_df [gemRowB, gemRowA] 0 0 "A" "All" =
      [gemRowB, gemRowA].filter fun r =>
        ((decide (0 ≤ r.date) && decide (r.date ≤ 0)) &&
          (("A" : String) == "All" || r.artist == "A")) && (("All" : String) == "All" || r.song == "All") :=
  filter_is_exact_selection.1 [gemRowB, gemRowA] 0 0 "A" "All"

/-- C6 (confirmed).  `total_pages` is `max 1 ⌈count / per⌉` (so at least 1
even on an empty sequence), concatenating the slices of all pages in order
reconstructs the sequence exactly, and a 1-indexed page number above
`total_pages` is clamped (by the page widget's bounds) to the last page. -/
theorem paginate_props {β : Type} : ∀ (seq : List β) (per idx : Nat), 0 < per →
    Claude.total_pages seq.length per = max 1 (seq.length ⌈/⌉ per)
    ∧ 1 ≤ Claude.total_pages seq.length per
    ∧ ((List.range (Claude.total_pages seq.length per)).map
        (fun i => Claude.page_slice seq per i)).flatten = seq
    ∧ (Claude.total_pages seq.length per < idx →
        Claude.paginate seq per idx =
          Claude.page_slice seq per (Claude.total_pages seq.length per - 1)) := by
  intro seq per idx hper
  have h1 : 1 ≤ Claude.total_pages seq.length per := Nat.le_max_left 1 _
  refine ⟨?_, h1, ?_, ?_⟩
  · rw [Nat.ceilDiv_eq_add_pred_div]
    rfl
  · have hmap : (List.range (Claude.total_pages seq.length per)).map
        (fun i => Claude.page_slice seq per i)
        = (List.range (Claude.total_pages seq.length per)).map
          (fun i => (seq.drop (i * per)).take per) :=
      List.map_congr_left fun i _ => page_slice_eq_drop_take seq per i
    rw [hmap, join_page_slices]
    exact List.take_of_length_le (le_total_pages_mul seq.length per hper)
  · intro hidx
    show Claude.page_slice seq per
        (if Claude.total_pages seq.length per > 1
          then min (max idx 1) (Claude.total_pages seq.length per) - 1 else 0) = _
    by_cases htp : Claude.total_pages seq.length per > 1
    · rw [if_pos htp, Nat.max_eq_left (by omega), Nat.min_eq_right (by omega)]
    · rw [if_neg htp]
      have htp1 : Claude.total_pages seq.length per = 1 := by omega
      rw [htp1]

/-- C6 witness: the spec scenario `Paginate([e1..e25], size=10, idx=3)`
returns the last five elements with three total pages; an out-of-range
page 7 is clamped to the last page. -/
theorem paginate_props_witness :
    (0 : Nat) < 10 ∧
    Claude.paginate (List.range 25) 10 3 = [20, 21, 22, 23, 24] ∧
    Claude.total_pages (List.range 25).length 10 = max 1 ((List.range 25).length ⌈/⌉ 10) ∧
    Claude.total_pages 25 10 = 3 ∧
    Claude.total_pages 0 10 = 1 ∧
    ((List.range (Claude.total_pages (List.range 25).length 10)).map
      (fun i => Claude.page_slice (List.range 25) 10 i)).flatten = List.range 25 ∧
    Claude.paginate (List.range 25) 10 7 =
      Claude.page_slice (List.range 25) 10 (Claude.total_pages (List.range 25).length 10 - 1) := by
  refine ⟨by decide, by decide, (paginate_props (List.range 25) 10 3 (by decide)).1,
    by decide, by decide, (paginate_props (List.range 25) 10 3 (by decide)).2.2.1,
    (paginate_props (List.range 25) 10 7 (by decide)).2.2.2 (by decide)⟩

/-- C8 (amended).  `wmradiostreamlitv2claude.load_data` returns `None`
exactly when the source is unreadable, the `artist` or `timestamp` column
is absent, or some timestamp cell fails to parse — a row with an
unparseable timestamp is not dropped, it makes the whole load fail.  On
success no row is dropped at all. -/
theorem claude_load_failure_conditions :
    ∀ src : Claude.CsvSource,
      (Claude.load_data src = none ↔
        src.readable = false ∨ src.hasArtistCol = false ∨ src.hasTimestampCol = false ∨
          src.rows.any (fun r => (parseTs r.timestamp).isNone) = true)
      ∧ (∀ df, Claude.load_data src = some df → df.length = src.rows.length) := by
  intro src
  rcases src with ⟨rd, hac, htc, rows⟩
  constructor
  · cases rd <;> cases hac <;> cases htc <;>
      by_cases hany : rows.any (fun r => (parseTs r.timestamp).isNone) = true <;>
      simp [Claude.load_data, hany]
  · intro df h
    unfold Claude.load_data at h
    split at h
    · cases h
    split at h
    · cases h
    split at h
    · cases h
    split at h
    · cases h
    injection h with h
    subst h
    simp

/-- C8 witness: a clean source loads with no row dropped. -/
theorem claude_load_failure_conditions_witness :
    Claude.load_data ⟨true, true, true, [rawMissing]⟩ = some [Claude.prep rawMissing] ∧
    [Claude.prep rawMissing].length = [rawMissing].length := by
  refine ⟨by decide, ?_⟩
  exact (claude_load_failure_conditions ⟨true, true, true, [rawMissing]⟩).2
    [Claude.prep rawMissing] (by decide)

/-- C8 counterexample: a readable source with both required columns whose
second row has a malformed timestamp makes the load fail, instead of the
claimed drop-the-row-and-continue. -/
theorem unparseable_timestamp_aborts_load :
    srcBadTs.readable = true ∧ srcBadTs.hasArtistCol = true ∧
    srcBadTs.hasTimestampCol = true ∧ Claude.load_data srcBadTs = none := by decide

theorem claude_prep_roundtrip {r : Claude.Row}
    (h : (r.date == dateOf r.timestamp && r.hour == hourOf r.timestamp &&
          r.day_of_week == dayNameOf r.timestamp && r.month == monthNameOf r.timestamp &&
          r.year == yearOf r.timestamp) = true) :
    Claude.prep ⟨r.pick_id, TsStr.valid r.timestamp, some r.artist, r.song, r.artwork_large⟩ = r := by
  simp only [Bool.and_eq_true, beq_iff_eq] at h
  obtain ⟨⟨⟨⟨h1, h2⟩, h3⟩, h4⟩, h5⟩ := h
  rcases r with ⟨pid, ts, art, sg, aw, dt, hw, dow, mo, yr⟩
  simp only at h1 h2 h3 h4 h5
  subst h1; subst h2; subst h3; subst h4; subst h5
  rfl

/-- C9 (amended).  The export writes the five input columns and the five
derived columns (not the input schema alone), and re-loading an exported
log yields exactly the same rows — same row count, same field values, the
derived columns recomputed identically.  Well-formedness (derived columns
agreeing with the timestamp) holds for every `load_data` output and is
preserved by the cleaning step and the sidebar filter, so the round trip
applies to every loaded log and filtered subset. -/
theorem export_roundtrip :
    (∀ df : List Claude.Row,
      (Claude.to_csv df).header = Claude.input_columns ++ Claude.derived_columns)
    ∧ (∀ df : List Claude.Row, Claude.wf df = true →
        Claude.reload (Claude.to_csv df) = some df)
    ∧ (∀ (src : Claude.CsvSource) (df : List Claude.Row),
        Claude.load_data src = some df → Claude.wf df = true)
    ∧ (∀ df : List Claude.Row, Claude.wf df = true → Claude.wf (Claude.clean df) = true)
    ∧ (∀ (df : List Claude.Row) (s e : Nat) (a b : String), Claude.wf df = true →
        Claude.wf (Claude.filtered_df df s e a b) = true) := by
  refine ⟨fun df => rfl, ?_, ?_, ?_, ?_⟩
  · intro df hwf
    unfold Claude.reload Claude.load_data Claude.to_csv
    rw [if_neg (by simp), if_neg (by simp), if_neg (by simp), if_neg ?hany]
    case hany =>
      simp only [List.any_eq_true]
      rintro ⟨r, hrm, hfalse⟩
      obtain ⟨x, _, rfl⟩ := List.mem_map.mp hrm
      simp [parseTs] at hfalse
    rw [List.map_map]
    simp only [Option.some.injEq]
    have : ∀ x ∈ df, (Claude.prep ∘ fun r : Claude.Row =>
        (⟨r.pick_id, TsStr.valid r.timestamp, some r.artist, r.song, r.artwork_large⟩ : RawRow)) x
        = id x := by
      intro x hx
      exact claude_prep_roundtrip (List.all_eq_true.mp hwf x hx)
    rw [List.map_congr_left this, List.map_id]
  · intro src df h
    unfold Claude.load_data at h
    split at h
    · cases h
    split at h
    · cases h
    split at h
    · cases h
    split at h
    · cases h
    injection h with h
    subst h
    simp only [Claude.wf, List.all_eq_true]
    intro x hx
    obtain ⟨r, _, rfl⟩ := List.mem_map.mp hx
    simp [Claude.prep]
  · intro df hwf
    simp only [Claude.wf, List.all_eq_true] at hwf ⊢
    intro x hx
    unfold Claude.clean at hx
    rw [List.mem_filter] at hx
    obtain ⟨hx1, _⟩ := hx
    rw [List.mem_filter] at hx1
    obtain ⟨hx2, _⟩ := hx1
    obtain ⟨r, hr, rfl⟩ := List.mem_map.mp hx2
    simpa using hwf r hr
  · intro df s e a b hwf
    simp only [Claude.wf, List.all_eq_true] at hwf ⊢
    intro x hx
    rw [claude_filtered_df_eq] at hx
    exact hwf x (List.mem_filter.mp hx).1

/-- C9 witness: round trip of a concrete one-row loaded log. -/
theorem export_roundtrip_witness :
    Claude.wf cLoaded = true ∧ Claude.reload (Claude.to_csv cLoaded) = some cLoaded :=
  ⟨by decide, export_roundtrip.2.1 cLoaded (by decide)⟩

/-- C9 counterexample: the exported header is not the input schema — it
also contains the derived `date` column (and `hour`, `day_of_week`,
`month`, `year`), so "a file in the input schema (the derived columns
excluded)" is false. -/
theorem export_includes_derived_columns :
    (Claude.to_csv cLoaded).header ≠ Claude.input_columns ∧
    "date" ∈ (Claude.to_csv cLoaded).header ∧ "date" ∉ Claude.input_columns := by decide

/-- C7 (amended).  Both recent-plays tables are sorted by timestamp
descending (and `gemprostreamlit`'s is truncated to 10 entries), and the
full sorted table is a permutation of its input; but rows with equal
timestamps do not keep their original order — pandas produces a
descending sort by reversing the ascending argsort, so tied rows come out
in reversed original order (see the counterexample), and with the default
`quicksort` the tie order is in general implementation-defined. -/
theorem recent_plays_sorted_desc :
    (∀ df : List Claude.Row,
      List.Pairwise (fun a b : Claude.Row => b.timestamp ≤ a.timestamp) (Claude.recent_plays df))
    ∧ (∀ df : List Claude.Row, (Claude.recent_plays df).Perm df)
    ∧ (∀ df : List Gem.Row,
      List.Pairwise (fun a b : Gem.Row => b.timestamp ≤ a.timestamp) (Gem.recent_plays df))
    ∧ (∀ df : List Gem.Row, (Gem.recent_plays df).length = min 10 df.length) := by
  haveI : IsTotal Claude.Row (fun a b => a.timestamp ≤ b.timestamp) :=
    ⟨fun a b => Nat.le_total _ _⟩
  haveI : IsTrans Claude.Row (fun a b => a.timestamp ≤ b.timestamp) :=
    ⟨fun _ _ _ => Nat.le_trans⟩
  haveI : IsTotal Gem.Row (fun a b => a.timestamp ≤ b.timestamp) :=
    ⟨fun a b => Nat.le_total _ _⟩
  haveI : IsTrans Gem.Row (fun a b => a.timestamp ≤ b.timestamp) :=
    ⟨fun _ _ _ => Nat.le_trans⟩
  refine ⟨fun df => ?_, fun df => ?_, fun df => ?_, fun df => ?_⟩
  · rw [Claude.recent_plays, List.pairwise_reverse]
    exact List.sorted_insertionSort _ df
  · exact (List.reverse_perm _).trans (List.perm_insertionSort _ df)
  · refine List.Pairwise.sublist (List.take_sublist 10 _) ?_
    rw [List.pairwise_reverse]
    exact List.sorted_insertionSort _ df
  · rw [Gem.recent_plays, List.length_take, List.length_reverse, List.length_insertionSort]

/-- C7 witness: the descending order and permutation at a concrete log. -/
theorem recent_plays_sorted_desc_witness :
    List.Pairwise (fun a b : Claude.Row => b.timestamp ≤ a.timestamp)
      (Claude.recent_plays [cDay0, cDay2]) ∧
    (Claude.recent_plays [cDay0, cDay2]).Perm [cDay0, cDay2] :=
  ⟨recent_plays_sorted_desc.1 [cDay0, cDay2], recent_plays_sorted_desc.2.1 [cDay0, cDay2]⟩

/-- C7 counterexample: two rows with equal timestamps come out in reversed
original order, so the claimed stable (original-order) tie-break is
false. -/
theorem equal_timestamps_reversed :
    cTie1.timestamp = cTie2.timestamp ∧ cTie1 ≠ cTie2 ∧
    Claude.recent_plays [cTie1, cTie2] = [cTie2, cTie1] ∧
    Claude.recent_plays [cTie1, cTie2] ≠ [cTie1, cTie2] := by decide

theorem claude_foldf_min_le (f : Claude.Row → Nat) (r : Claude.Row) (rs : List Claude.Row) :
    ∀ x ∈ r :: rs, Claude.minIdx f (r :: rs) ≤ f x := by
  intro x hx
  show rs.foldl (fun m x => min m (f x)) (f r) ≤ f x
  rw [← List.foldl_map f min rs (f r)]
  rcases List.mem_cons.mp hx with rfl | hx
  · exact foldl_min_le_init _ _
  · exact foldl_min_le_mem _ _ _ (List.mem_map_of_mem f hx)

theorem claude_le_foldf_max (f : Claude.Row → Nat) (r : Claude.Row) (rs : List Claude.Row) :
    ∀ x ∈ r :: rs, f x ≤ Claude.maxIdx f (r :: rs) := by
  intro x hx
  show f x ≤ rs.foldl (fun m x => max m (f x)) (f r)
  rw [← List.foldl_map f max rs (f r)]
  rcases List.mem_cons.mp hx with rfl | hx
  · exact init_le_foldl_max _ _
  · exact mem_le_foldl_max _ _ _ (List.mem_map_of_mem f hx)

theorem bucket_df_cons (f : Claude.Row → Nat) (g : Nat → Nat) (r : Claude.Row)
    (rs : List Claude.Row) :
    Claude.bucket_df f g (r :: rs) =
      (List.range (Claude.maxIdx f (r :: rs) + 1 - Claude.minIdx f (r :: rs))).map fun i =>
        (g (Claude.minIdx f (r :: rs) + i),
          (r :: rs).countP fun x => f x == Claude.minIdx f (r :: rs) + i) := rfl

theorem bucket_df_props (f : Claude.Row → Nat) (g : Nat → Nat) (r : Claude.Row)
    (rs : List Claude.Row) :
    (((Claude.bucket_df f g (r :: rs)).map Prod.snd).sum = (r :: rs).length)
    ∧ (∀ k : Nat, Claude.minIdx f (r :: rs) ≤ k → k ≤ Claude.maxIdx f (r :: rs) →
        (g k, (r :: rs).countP fun x => f x == k) ∈ Claude.bucket_df f g (r :: rs))
    ∧ (∀ p ∈ Claude.bucket_df f g (r :: rs), ∃ k : Nat,
        Claude.minIdx f (r :: rs) ≤ k ∧ k ≤ Claude.maxIdx f (r :: rs) ∧
        p = (g k, (r :: rs).countP fun x => f x == k)) := by
  have hlo := claude_foldf_min_le f r rs
  have hhi := claude_le_foldf_max f r rs
  have hle : Claude.minIdx f (r :: rs) ≤ Claude.maxIdx f (r :: rs) :=
    Nat.le_trans (hlo r (List.mem_cons_self r rs)) (hhi r (List.mem_cons_self r rs))
  refine ⟨?_, ?_, ?_⟩
  · rw [bucket_df_cons, List.map_map]
    exact sum_range_countP (r :: rs) f (Claude.minIdx f (r :: rs))
      (Claude.maxIdx f (r :: rs) + 1 - Claude.minIdx f (r :: rs))
      (fun x hx => ⟨hlo x hx, by have h3 := hhi x hx; omega⟩)
  · intro k h1 h2
    rw [bucket_df_cons]
    refine List.mem_map.mpr ⟨k - Claude.minIdx f (r :: rs), List.mem_range.mpr (by omega), ?_⟩
    have hk : Claude.minIdx f (r :: rs) + (k - Claude.minIdx f (r :: rs)) = k := by omega
    rw [hk]
  · intro p hp
    rw [bucket_df_cons] at hp
    obtain ⟨i, hi, rfl⟩ := List.mem_map.mp hp
    rw [List.mem_range] at hi
    exact ⟨Claude.minIdx f (r :: rs) + i, by omega, by omega, rfl⟩

theorem one_le_daysInMonthIdx (idx : Nat) : 1 ≤ Claude.daysInMonthIdx idx := by
  unfold Claude.daysInMonthIdx
  split
  · split <;> omega
  all_goals omega

theorem monthIdxAux_spec : ∀ (fuel d idx : Nat), d < fuel →
    Claude.monthStartDay (Claude.monthIdxAux fuel d idx) ≤ Claude.monthStartDay idx + d ∧
    Claude.monthStartDay idx + d < Claude.monthStartDay (Claude.monthIdxAux fuel d idx + 1) := by
  intro fuel
  induction fuel with
  | zero => intro d idx h; exact absurd h (Nat.not_lt_zero d)
  | succ fuel ih =>
    intro d idx h
    simp only [Claude.monthIdxAux]
    by_cases hd : d < Claude.daysInMonthIdx idx
    · rw [if_pos hd]
      have hstart : Claude.monthStartDay (idx + 1)
          = Claude.monthStartDay idx + Claude.daysInMonthIdx idx := rfl
      omega
    · rw [if_neg hd]
      have hdays := one_le_daysInMonthIdx idx
      have hrec := ih (d - Claude.daysInMonthIdx idx) (idx + 1) (by omega)
      have hstart : Claude.monthStartDay (idx + 1)
          = Claude.monthStartDay idx + Claude.daysInMonthIdx idx := rfl
      omega

theorem date_within_month_label (t : Nat) :
    Claude.monthStartDay (Claude.monthIdxOf t) ≤ dateOf t ∧
    dateOf t ≤ Claude.monthEndDay (Claude.monthIdxOf t) := by
  have h := monthIdxAux_spec (dateOf t + 1) (dateOf t) 0 (by omega)
  have h0 : Claude.monthStartDay 0 = 0 := rfl
  have hpos : 1 ≤ Claude.monthStartDay (Claude.monthIdxAux (dateOf t + 1) (dateOf t) 0 + 1) := by
    omega
  unfold Claude.monthIdxOf Claude.monthEndDay
  omega

theorem week_label_bounds (t : Nat) :
    dateOf t ≤ Claude.weekLabelOf (Claude.weekIdxOf t) ∧
    Claude.weekLabelOf (Claude.weekIdxOf t) < dateOf t + 7 ∧
    Claude.weekLabelOf (Claude.weekIdxOf t) % 7 = 3 := by
  unfold Claude.weekLabelOf Claude.weekIdxOf
  have hd := Nat.div_add_mod (dateOf t + 3) 7
  have hm : (dateOf t + 3) % 7 < 7 := Nat.mod_lt _ (by omega)
  refine ⟨by omega, by omega, by omega⟩

theorem take_of_pairwise_largest {γ : Type} {R : γ → γ → Prop} {l : List γ} (n : Nat)
    (hsort : List.Pairwise R l) :
    ∀ p ∈ l.take n, ∀ q ∈ l, q ∉ l.take n → R p q := by
  intro p hp q hq hqn
  rw [← List.take_append_drop n l] at hsort hq
  rcases List.mem_append.mp hq with h | h
  · exact absurd h hqn
  · exact (List.pairwise_append.mp hsort).2.2 p hp q h

theorem sum_ite_mem_nodup {α : Type} [DecidableEq α] (ks : List α) (a : α)
    (hnd : ks.Nodup) :
    (ks.map fun k => if a = k then 1 else 0).sum = if a ∈ ks then 1 else 0 := by
  induction ks with
  | nil => simp
  | cons k ks ih =>
    rw [List.map_cons, List.sum_cons, ih (List.nodup_cons.mp hnd).2]
    by_cases hak : a = k
    · subst hak
      have hnk : a ∉ ks := (List.nodup_cons.mp hnd).1
      simp [hnk]
    · simp [hak, List.mem_cons]

theorem sum_countP_dedup {α : Type} [DecidableEq α] (l : List α) :
    (l.dedup.map fun k => l.countP fun x => decide (x = k)).sum = l.length := by
  induction l with
  | nil => simp
  | cons a l ih =>
    have hsplit : ∀ ks : List α,
        (ks.map fun k => (a :: l).countP fun x => decide (x = k)).sum
          = (ks.map fun k => l.countP fun x => decide (x = k)).sum
            + (ks.map fun k => if a = k then 1 else 0).sum := by
      intro ks
      rw [← sum_map_add_nat]
      refine congrArg List.sum (List.map_congr_left fun k _ => ?_)
      rw [List.countP_cons]
      simp only [decide_eq_true_eq]
    by_cases hmem : a ∈ l
    · rw [List.dedup_cons_of_mem hmem, hsplit, ih,
        sum_ite_mem_nodup _ _ (List.nodup_dedup l), if_pos (List.mem_dedup.mpr hmem)]
      rfl
    · rw [List.dedup_cons_of_not_mem hmem, List.map_cons, List.sum_cons,
        hsplit l.dedup, ih, sum_ite_mem_nodup _ _ (List.nodup_dedup l),
        if_neg (fun h => hmem (List.mem_dedup.mp h))]
      have h0 : (l.countP fun x => decide (x = a)) = 0 := by
        rw [List.countP_eq_zero]
        intro x hx
        simp only [decide_eq_true_eq]
        rintro rfl
        exact hmem hx
      rw [List.countP_cons]
      simp only [h0, decide_eq_true_eq, if_pos rfl]
      simp [Nat.add_comm]

theorem claude_countP_pair_eq_count (df : List Claude.Row) (k : String × String) :
    (df.countP fun r => r.song == some k.1 && r.artist == k.2)
      = ((df.filterMap fun r => r.song.map fun s => (s, r.artist)).countP
          fun p => decide (p = k)) := by
  induction df with
  | nil => rfl
  | cons r rs ih =>
    rw [List.countP_cons, List.filterMap_cons]
    rcases hs : r.song with _ | s
    · simp only [hs, Option.map_none']
      rw [ih]
      simp
    · simp only [hs, Option.map_some']
      rw [List.countP_cons, ih]
      rcases k with ⟨k1, k2⟩
      by_cases h1 : s = k1 <;> by_cases h2 : r.artist = k2 <;>
        simp [h1, h2, Prod.ext_iff]

theorem claude_minDate_le (r : Claude.Row) (rs : List Claude.Row) :
    ∀ x ∈ r :: rs, Claude.minDate (r :: rs) ≤ x.date := by
  intro x hx
  show rs.foldl (fun m x => min m x.date) r.date ≤ x.date
  rw [show (fun (m : Nat) (x : Claude.Row) => min m x.date)
      = fun m y => min m ((fun z : Claude.Row => z.date) y) from rfl, ← List.foldl_map]
  rcases List.mem_cons.mp hx with rfl | hx
  · exact foldl_min_le_init _ _
  · exact foldl_min_le_mem _ _ _ (List.mem_map_of_mem _ hx)

theorem claude_le_maxDate (r : Claude.Row) (rs : List Claude.Row) :
    ∀ x ∈ r :: rs, x.date ≤ Claude.maxDate (r :: rs) := by
  intro x hx
  show x.date ≤ rs.foldl (fun m x => max m x.date) r.date
  rw [show (fun (m : Nat) (x : Claude.Row) => max m x.date)
      = fun m y => max m ((fun z : Claude.Row => z.date) y) from rfl, ← List.foldl_map]
  rcases List.mem_cons.mp hx with rfl | hx
  · exact init_le_foldl_max _ _
  · exact mem_le_foldl_max _ _ _ (List.mem_map_of_mem _ hx)

theorem time_df_daily_cons (r : Claude.Row) (rs : List Claude.Row) :
    Claude.time_df_daily (r :: rs) =
      (List.range (Claude.maxDate (r :: rs) + 1 - Claude.minDate (r :: rs))).map fun i =>
        (Claude.minDate (r :: rs) + i,
          (r :: rs).countP fun x => x.date == Claude.minDate (r :: rs) + i) := rfl


/-- C5 (amended).  For every granularity the time buckets run over every
period — day, Sunday-ending week, calendar month — from the period of the
earliest timestamp to the period of the latest inclusive; each bucket
counts exactly the rows of its period and summing the buckets counts every
row exactly once; periods with zero rows inside that span are included
with count 0, not omitted.  Daily buckets are labelled by the day itself,
but weekly and monthly buckets are labelled by the period END — the ending
Sunday resp. the last day of the month, a date at or after every day of
the period — not the period start.  An empty log yields an empty list. -/
theorem time_df_bucket_props :
    ∀ (r : Claude.Row) (rs : List Claude.Row),
      (((Claude.time_df_daily (r :: rs)).map Prod.snd).sum = (r :: rs).length)
      ∧ (∀ p ∈ Claude.time_df_daily (r :: rs),
          p.2 = (r :: rs).countP fun x => x.date == p.1)
      ∧ (∀ d : Nat, Claude.minDate (r :: rs) ≤ d → d ≤ Claude.maxDate (r :: rs) →
          (d, (r :: rs).countP fun x => x.date == d) ∈ Claude.time_df_daily (r :: rs))
      ∧ (((Claude.time_df_weekly (r :: rs)).map Prod.snd).sum = (r :: rs).length)
      ∧ (∀ k : Nat, Claude.minIdx (fun x => Claude.weekIdxOf x.timestamp) (r :: rs) ≤ k →
          k ≤ Claude.maxIdx (fun x => Claude.weekIdxOf x.timestamp) (r :: rs) →
          (Claude.weekLabelOf k, (r :: rs).countP fun x => Claude.weekIdxOf x.timestamp == k)
            ∈ Claude.time_df_weekly (r :: rs))
      ∧ (∀ p ∈ Claude.time_df_weekly (r :: rs), ∃ k : Nat,
          p = (Claude.weekLabelOf k,
            (r :: rs).countP fun x => Claude.weekIdxOf x.timestamp == k))
      ∧ (((Claude.time_df_monthly (r :: rs)).map Prod.snd).sum = (r :: rs).length)
      ∧ (∀ k : Nat, Claude.minIdx (fun x => Claude.monthIdxOf x.timestamp) (r :: rs) ≤ k →
          k ≤ Claude.maxIdx (fun x => Claude.monthIdxOf x.timestamp) (r :: rs) →
          (Claude.monthEndDay k, (r :: rs).countP fun x => Claude.monthIdxOf x.timestamp == k)
            ∈ Claude.time_df_monthly (r :: rs))
      ∧ (∀ p ∈ Claude.time_df_monthly (r :: rs), ∃ k : Nat,
          p = (Claude.monthEndDay k,
            (r :: rs).countP fun x => Claude.monthIdxOf x.timestamp == k))
      ∧ (∀ t : Nat, dateOf t ≤ Claude.weekLabelOf (Claude.weekIdxOf t) ∧
          Claude.weekLabelOf (Claude.weekIdxOf t) < dateOf t + 7 ∧
          Claude.weekLabelOf (Claude.weekIdxOf t) % 7 = 3)
      ∧ (∀ t : Nat, Claude.monthStartDay (Claude.monthIdxOf t) ≤ dateOf t ∧
          dateOf t ≤ Claude.monthEndDay (Claude.monthIdxOf t))
      ∧ Claude.time_df_daily [] = [] ∧ Claude.time_df_weekly [] = []
      ∧ Claude.time_df_monthly [] = [] := by
  intro r rs
  have hlo := claude_minDate_le r rs
  have hhi := claude_le_maxDate r rs
  have hle : Claude.minDate (r :: rs) ≤ Claude.maxDate (r :: rs) :=
    Nat.le_trans (hlo r (List.mem_cons_self r rs)) (hhi r (List.mem_cons_self r rs))
  obtain ⟨hwsum, hwmem, hwchar⟩ :=
    bucket_df_props (fun x => Claude.weekIdxOf x.timestamp) Claude.weekLabelOf r rs
  obtain ⟨hmsum, hmmem, hmchar⟩ :=
    bucket_df_props (fun x => Claude.monthIdxOf x.timestamp) Claude.monthEndDay r rs
  refine ⟨?_, ?_, ?_, hwsum, hwmem, fun p hp => ?_, hmsum, hmmem, fun p hp => ?_,
    week_label_bounds, date_within_month_label, rfl, rfl, rfl⟩
  · rw [time_df_daily_cons, List.map_map]
    exact sum_range_countP (r :: rs) (fun x => x.date) (Claude.minDate (r :: rs))
      (Claude.maxDate (r :: rs) + 1 - Claude.minDate (r :: rs))
      (fun x hx => ⟨hlo x hx, by
        have h3 := hhi x hx
        show x.date < Claude.minDate (r :: rs) +
          (Claude.maxDate (r :: rs) + 1 - Claude.minDate (r :: rs))
        omega⟩)
  · intro p hp
    rw [time_df_daily_cons] at hp
    obtain ⟨i, _, rfl⟩ := List.mem_map.mp hp
    rfl
  · intro d h1 h2
    rw [time_df_daily_cons]
    refine List.mem_map.mpr ⟨d - Claude.minDate (r :: rs), List.mem_range.mpr (by omega), ?_⟩
    have hd : Claude.minDate (r :: rs) + (d - Claude.minDate (r :: rs)) = d := by omega
    rw [hd]
  · obtain ⟨k, _, _, hk⟩ := hwchar p hp
    exact ⟨k, hk⟩
  · obtain ⟨k, _, _, hk⟩ := hmchar p hp
    exact ⟨k, hk⟩

/-- C5 witness: the bucket properties at a concrete two-row log, including
a bucket for the middle (empty) day, for all three granularities. -/
theorem time_df_bucket_props_witness :
    ((Claude.time_df_daily [cDay0, cDay2]).map Prod.snd).sum
      = ([cDay0, cDay2] : List Claude.Row).length ∧
    (1, ([cDay0, cDay2] : List Claude.Row).countP fun x => x.date == 1) ∈
      Claude.time_df_daily [cDay0, cDay2] ∧
    ((Claude.time_df_weekly [cDay0, cDay2]).map Prod.snd).sum
      = ([cDay0, cDay2] : List Claude.Row).length ∧
    (Claude.weekLabelOf 0,
        ([cDay0, cDay2] : List Claude.Row).countP fun x => Claude.weekIdxOf x.timestamp == 0)
      ∈ Claude.time_df_weekly [cDay0, cDay2] ∧
    ((Claude.time_df_monthly [cDay0, cDay2]).map Prod.snd).sum
      = ([cDay0, cDay2] : List Claude.Row).length := by
  refine ⟨(time_df_bucket_props cDay0 [cDay2]).1, ?_,
    (time_df_bucket_props cDay0 [cDay2]).2.2.2.1, ?_,
    (time_df_bucket_props cDay0 [cDay2]).2.2.2.2.2.2.1⟩
  · exact (time_df_bucket_props cDay0 [cDay2]).2.2.1 1 (by decide) (by decide)
  · exact (time_df_bucket_props cDay0 [cDay2]).2.2.2.2.1 0 (by decide) (by decide)

/-- C5 counterexample: a log with plays on day 0 and day 2 produces a
daily bucket `(1, 0)` for the empty middle day, so "omits buckets
containing zero rows" is false; moreover its weekly bucket is labelled
day 3 (the ending Sunday) and its monthly bucket day 30 (the last day of
January 1970), both strictly after every contained row's date, so the
weekly and monthly labels are period ends, not the claimed week/month
starts. -/
theorem empty_bucket_not_omitted :
    Claude.time_df_daily [cDay0, cDay2] = [(0, 1), (1, 0), (2, 1)] ∧
    (1, 0) ∈ Claude.time_df_daily [cDay0, cDay2] ∧
    ¬ (∀ p ∈ Claude.time_df_daily [cDay0, cDay2], p.2 ≠ 0) ∧
    Claude.time_df_weekly [cDay0, cDay2] = [(3, 2)] ∧
    cDay0.date < 3 ∧ cDay2.date < 3 ∧
    Claude.time_df_monthly [cDay0, cDay2] = [(30, 2)] ∧
    cDay0.date < 30 ∧ cDay2.date < 30 := by decide

/-- C4 (amended).  TopN counts rows per distinct group-key combination —
`wmradiostreamlitv2claude`'s `top_songs` counts rows per `(song, artist)`
pair via `groupby(...).size()`, while `gemprostreamlit`'s `top_artists`
counts the rows with a non-null `pick_id` per artist via
`groupby("artist")["pick_id"].count()` — and returns the n largest groups
(10 resp. 5 in the sources, `top_artists` generalised to n) by count
descending: every returned group's count is at least every omitted
group's count, the returned counts are non-increasing, and their sum is
at most the total row count.  Ties are not broken by first-encountered
order: in `gemprostreamlit` the key-sorted groupby output and the stable
`nlargest(keep='first')` give ascending group-key order (any count-tied
pair of the key-sorted group list keeps its order), and in
`wmradiostreamlitv2claude` the tie order of `sort_values` (an unstable
quicksort whose result is reversed) is implementation-defined. -/
theorem topN_props :
    ∀ (df : List Gem.Row) (n : Nat) (cdf : List Claude.Row),
      List.Pairwise countsGe (Gem.top_artists df n)
      ∧ ((Gem.top_artists df n).map Prod.snd).sum ≤ df.length
      ∧ (∀ p ∈ Gem.top_artists df n, p ∈ Gem.artistGroups df)
      ∧ (Gem.top_artists df n).length = min n (Gem.artistGroups df).length
      ∧ (∀ p ∈ Gem.top_artists df n, ∀ q ∈ Gem.artistGroups df,
          q ∉ Gem.top_artists df n → q.2 ≤ p.2)
      ∧ (∀ p q : String × Nat, p.2 = q.2 → List.Sublist [p, q] (Gem.artistGroups df) →
          List.Sublist [p, q] (List.insertionSort countsGe (Gem.artistGroups df)))
      ∧ List.Pairwise (fun p q : (String × String) × Nat => q.2 ≤ p.2) (Claude.top_songs cdf)
      ∧ ((Claude.top_songs cdf).map Prod.snd).sum ≤ cdf.length
      ∧ (∀ p ∈ Claude.top_songs cdf, p ∈ Claude.songGroups cdf)
      ∧ (Claude.top_songs cdf).length = min 10 (Claude.songGroups cdf).length
      ∧ (∀ p ∈ Claude.top_songs cdf, ∀ q ∈ Claude.songGroups cdf,
          q ∉ Claude.top_songs cdf → q.2 ≤ p.2) := by
  intro df n cdf
  haveI : IsTotal ((String × String) × Nat) (fun p q => p.2 ≤ q.2) :=
    ⟨fun a b => Nat.le_total _ _⟩
  haveI : IsTrans ((String × String) × Nat) (fun p q => p.2 ≤ q.2) :=
    ⟨fun _ _ _ => Nat.le_trans⟩
  have hgsort : List.Pairwise countsGe (List.insertionSort countsGe (Gem.artistGroups df)) :=
    List.sorted_insertionSort countsGe (Gem.artistGroups df)
  have hcsortasc := List.sorted_insertionSort (fun p q : (String × String) × Nat => p.2 ≤ q.2)
    (Claude.songGroups cdf)
  have hcsort : List.Pairwise (fun p q : (String × String) × Nat => q.2 ≤ p.2)
      ((List.insertionSort (fun p q : (String × String) × Nat => p.2 ≤ q.2)
        (Claude.songGroups cdf)).reverse) := by
    rw [List.pairwise_reverse]
    exact hcsortasc
  have hcperm : ((List.insertionSort (fun p q : (String × String) × Nat => p.2 ≤ q.2)
      (Claude.songGroups cdf)).reverse).Perm (Claude.songGroups cdf) :=
    (List.reverse_perm _).trans (List.perm_insertionSort _ _)
  refine ⟨?_, ?_, ?_, ?_, ?_, ?_, ?_, ?_, ?_, ?_, ?_⟩
  · exact List.Pairwise.sublist (List.take_sublist n _) hgsort
  · unfold Gem.top_artists Gem.nlargest
    rw [List.map_take]
    refine Nat.le_trans (sum_take_le_nat _ n) ?_
    have hperm : ((List.insertionSort countsGe (Gem.artistGroups df)).map Prod.snd).Perm
        ((Gem.artistGroups df).map Prod.snd) :=
      (List.perm_insertionSort countsGe (Gem.artistGroups df)).map Prod.snd
    rw [hperm.sum_eq]
    unfold Gem.artistGroups
    rw [List.map_map]
    have h1 : ((Gem.artistKeys df).map fun k =>
          df.countP fun r => r.artist == k && r.pick_id.isSome).sum
        ≤ ((Gem.artistKeys df).map fun k => df.countP fun r => r.artist == k).sum :=
      List.sum_le_sum fun k _ =>
        List.countP_mono_left fun r _ hb => ((Bool.and_eq_true _ _).mp hb).1
    refine Nat.le_trans h1 ?_
    have hkeys : (Gem.artistKeys df).Perm (df.map (·.artist)).dedup :=
      List.perm_insertionSort _ _
    rw [((hkeys.map fun k => df.countP fun r => r.artist == k)).sum_eq]
    have hcnt : ∀ k ∈ (df.map (·.artist)).dedup,
        (fun k => df.countP fun r => r.artist == k) k
          = (fun k => (df.map (·.artist)).count k) k := by
      intro k _
      show df.countP (fun r => r.artist == k) = (df.map (·.artist)).count k
      rw [List.count_eq_countP, List.countP_map]
      rfl
    rw [List.map_congr_left hcnt, List.sum_map_count_dedup_eq_length, List.length_map]
  · intro p hp
    have hp2 : p ∈ List.insertionSort countsGe (Gem.artistGroups df) :=
      List.mem_of_mem_take hp
    exact (List.perm_insertionSort countsGe (Gem.artistGroups df)).mem_iff.mp hp2
  · show ((List.insertionSort countsGe (Gem.artistGroups df)).take n).length = _
    rw [List.length_take, List.length_insertionSort]
  · intro p hp q hq hqn
    exact take_of_pairwise_largest n hgsort p hp q
      ((List.perm_insertionSort countsGe (Gem.artistGroups df)).mem_iff.mpr hq) hqn
  · intro p q hpq hsub
    exact List.pair_sublist_insertionSort (Nat.le_of_eq hpq.symm) hsub
  · exact List.Pairwise.sublist (List.take_sublist 10 _) hcsort
  · unfold Claude.top_songs
    rw [List.map_take]
    refine Nat.le_trans (sum_take_le_nat _ 10) ?_
    rw [(hcperm.map Prod.snd).sum_eq]
    unfold Claude.songGroups
    rw [List.map_map]
    show ((Claude.songArtistKeys cdf).map
        fun k => cdf.countP fun r => r.song == some k.1 && r.artist == k.2).sum ≤ cdf.length
    have hkeys : (Claude.songArtistKeys cdf).Perm
        ((cdf.filterMap fun r => r.song.map fun s => (s, r.artist)).dedup) :=
      List.perm_insertionSort _ _
    rw [((hkeys.map fun k => cdf.countP fun r => r.song == some k.1 && r.artist == k.2)).sum_eq]
    have hcnt : ∀ k ∈ (cdf.filterMap fun r => r.song.map fun s => (s, r.artist)).dedup,
        (fun k => cdf.countP fun r => r.song == some k.1 && r.artist == k.2) k
          = (fun k =>
              (cdf.filterMap fun r => r.song.map fun s => (s, r.artist)).countP
                fun p => decide (p = k)) k := by
      intro k _
      exact claude_countP_pair_eq_count cdf k
    rw [List.map_congr_left hcnt, sum_countP_dedup]
    exact List.length_filterMap_le _ _
  · intro p hp
    exact hcperm.mem_iff.mp (List.mem_of_mem_take hp)
  · show (((List.insertionSort (fun p q : (String × String) × Nat => p.2 ≤ q.2)
        (Claude.songGroups cdf)).reverse).take 10).length = _
    rw [List.length_take, List.length_reverse, List.length_insertionSort]
  · intro p hp q hq hqn
    exact take_of_pairwise_largest 10 hcsort p hp q (hcperm.mem_iff.mpr hq) hqn

/-- C4 witness: the properties at concrete logs — gem's with two tied
artists, claude's with one (song, artist) pair of two plays. -/
theorem topN_props_witness :
    List.Pairwise countsGe (Gem.top_artists [gemRowB, gemRowA] 2) ∧
    ((Gem.top_artists [gemRowB, gemRowA] 2).map Prod.snd).sum ≤
      ([gemRowB, gemRowA] : List Gem.Row).length ∧
    List.Sublist ([(("A" : String), 1), (("B" : String), 1)] : List (String × Nat))
      (List.insertionSort countsGe (Gem.artistGroups [gemRowB, gemRowA])) ∧
    Claude.top_songs [cDay0, cDay2] = [(("X", "A"), 2)] ∧
    ((Claude.top_songs [cDay0, cDay2]).map Prod.snd).sum ≤
      ([cDay0, cDay2] : List Claude.Row).length := by
  refine ⟨(topN_props [gemRowB, gemRowA] 2 []).1,
    (topN_props [gemRowB, gemRowA] 2 []).2.1, ?_, by decide,
    (topN_props [gemRowB, gemRowA] 2 [cDay0, cDay2]).2.2.2.2.2.2.2.1⟩
  have hgroups : Gem.artistGroups [gemRowB, gemRowA] = [("A", 1), ("B", 1)] := by decide
  refine (topN_props [gemRowB, gemRowA] 2 []).2.2.2.2.2.1 ("A", 1) ("B", 1) rfl ?_
  rw [hgroups]

/-- C4 counterexample: with artists encountered in the order "B", "A" and
tied counts, the code returns the tied groups in ascending key order
("A" first), not first-encountered order ("B" first); and with a null
`pick_id` the code counts 1 for two rows where the claim's
count-rows-per-group semantics counts 2. -/
theorem topn_tie_break_not_first_encountered :
    Gem.top_artists [gemRowB, gemRowA] 2 = [("A", 1), ("B", 1)] ∧
    topN_firstEncountered [gemRowB, gemRowA] 2 = [("B", 1), ("A", 1)] ∧
    Gem.top_artists [gemRowB, gemRowA] 2 ≠ topN_firstEncountered [gemRowB, gemRowA] 2 ∧
    Gem.top_artists [gemRowA, gemRowANoId] 1 = [("A", 1)] ∧
    topN_firstEncountered [gemRowA, gemRowANoId] 1 = [("A", 2)] := by decide
